import Mathlib

/-!
Shallow embedding of the probability/value-detection core of the
BOT-1.5-gols repository, and proofs about it.

Python floats are modelled as exact numbers: `ℚ` for the value-detector
module (no transcendental functions there) and `ℝ` for the probability
calculator (which uses `math.exp`).  Python dict lookups with `.get(key,
default)` are modelled by `Option` fields read with `getD`.  A Python
value that is not a dict (so that any attribute access on it raises,
landing in the local `except` handler) is modelled by a dedicated `bad`
constructor of the input type.  `round(x, n)` is Python 3 rounding:
round half to even, modelled exactly.
-/

/-- Python 3 `round` to an integer: round half to even. -/
def pyRoundInt (x : ℚ) : ℤ :=
  let f := ⌊x⌋
  if x - f < 1/2 then f
  else if 1/2 < x - f then f + 1
  else if Even f then f else f + 1

/-- Python 3 `round(x, n)` on our exact model of floats. -/
def pyRound (n : ℕ) (x : ℚ) : ℚ :=
  (pyRoundInt (x * 10 ^ n) : ℚ) / 10 ^ n

namespace FVD

/-!
Embedding of `src/football_value_detector/src/value_detector.py`
(class `ValueDetector`).
-/

def MIN_CONFIDENCE : ℚ := 0.60
def MIN_EV : ℚ := 0.05
def MIN_PROBABILITY : ℚ := 0.65
def MAX_ODDS : ℚ := 2.50
def MIN_ODDS : ℚ := 1.10
def kelly_fraction : ℚ := 0.25

/-- `_calculate_implied_probability`: `1.0 / odds`, with the
`ZeroDivisionError` handler returning `0.0`. -/
def calculate_implied_probability (odds : ℚ) : ℚ :=
  if odds = 0 then 0 else 1 / odds

/-- `_calculate_expected_value`: `(our_probability * odds) - 1.0`.
The `except` branch is unreachable for numeric inputs. -/
def calculate_expected_value (our_probability odds : ℚ) : ℚ :=
  our_probability * odds - 1

/-- `_meets_criteria`: the four sequential threshold checks
(lines 121-151).  Note the lower odds bound is checked by the caller
`analyze_match`, not here. -/
def meets_criteria (probability confidence odds : ℚ) : Bool :=
  if probability < MIN_PROBABILITY then false
  else if confidence < MIN_CONFIDENCE then false
  else if MAX_ODDS < odds then false
  else if calculate_expected_value probability odds < MIN_EV then false
  else true

/-- `_calculate_kelly_stake` (lines 188-222).  `b = 0` makes the Python
division raise `ZeroDivisionError`, and the handler returns `0.01`. -/
def calculate_kelly_stake (probability odds : ℚ) : ℚ :=
  let b := odds - 1
  if b = 0 then 0.01
  else
    let p := probability
    let q := 1 - p
    let kelly := (b * p - q) / b
    let fractional_kelly := kelly * kelly_fraction
    max 0 (min fractional_kelly 0.10)

/-- `_classify_bet_quality` (lines 224-247). -/
def classify_bet_quality (expected_value confidence edge : ℚ) : String :=
  let score := expected_value * 0.4 + confidence / 100 * 0.3 + edge * 0.3
  if 0.25 ≤ score ∧ 80 ≤ confidence then "EXCELENTE"
  else if 0.20 ≤ score ∧ 70 ≤ confidence then "MUITO BOA"
  else if 0.15 ≤ score ∧ 60 ≤ confidence then "BOA"
  else if 0.10 ≤ score then "REGULAR"
  else "FRACA"

/-- `_calculate_risk_level` (lines 249-287). -/
def calculate_risk_level (probability confidence odds : ℚ) : String :=
  let risk1 : ℕ := if probability < 0.70 then 2 else if probability < 0.75 then 1 else 0
  let risk2 : ℕ := if confidence < 70 then 2 else if confidence < 80 then 1 else 0
  let risk3 : ℕ := if 2.0 < odds then 2 else if 1.7 < odds then 1 else 0
  let risk_score := risk1 + risk2 + risk3
  if risk_score = 0 then "BAIXO"
  else if risk_score ≤ 2 then "MODERADO"
  else if risk_score ≤ 4 then "ALTO"
  else "MUITO ALTO"

/-- The `probability_data` dict as consumed by `analyze_match`
(missing keys default to `0` via `.get`). -/
structure ProbabilityData where
  probability : Option ℚ
  confidence : Option ℚ
deriving DecidableEq

/-- The `odds_data` dict: `odds_data.get('over_1_5_odds')`. -/
structure OddsData where
  over_1_5_odds : Option ℚ
deriving DecidableEq

/-- The numeric and classification fields of the result dict built by
`analyze_match` (lines 79-107).  The match-identification fields are
pass-through copies of `match_data` and carry no logic. -/
structure AnalysisResult where
  our_probability : ℚ
  implied_probability : ℚ
  confidence : ℚ
  over_1_5_odds : ℚ
  edge : ℚ
  expected_value : ℚ
  kelly_stake : ℚ
  recommended_stake : ℚ
  bet_quality : String
  risk_level : String
deriving DecidableEq

/-- `analyze_match` (lines 27-119).  `not over_odds` is the Python
falsiness test: true for a missing key (`None`) and for `0.0`.  The
whole body is wrapped in `try/except Exception: return None`, so the
embedding is a total function into `Option`. -/
def analyze_match (probability_data : ProbabilityData) (odds_data : OddsData) :
    Option AnalysisResult :=
  let our_probability := probability_data.probability.getD 0
  let confidence := probability_data.confidence.getD 0
  match odds_data.over_1_5_odds with
  | none => none
  | some over_odds =>
    if over_odds = 0 ∨ over_odds < MIN_ODDS then none
    else if meets_criteria our_probability confidence over_odds then
      let implied_probability := calculate_implied_probability over_odds
      let edge := our_probability - implied_probability
      let expected_value := calculate_expected_value our_probability over_odds
      let kelly_stake := calculate_kelly_stake our_probability over_odds
      some
        { our_probability := pyRound 4 our_probability
          implied_probability := pyRound 4 implied_probability
          confidence := pyRound 2 confidence
          over_1_5_odds := pyRound 2 over_odds
          edge := pyRound 4 edge
          expected_value := pyRound 4 expected_value
          kelly_stake := pyRound 2 kelly_stake
          recommended_stake := pyRound 1 (kelly_stake * 100)
          bet_quality := classify_bet_quality expected_value confidence edge
          risk_level := calculate_risk_level our_probability confidence over_odds }
    else none

end FVD

namespace SRC

/-!
Embedding of `src/src/value_detector.py` (the second revision of the
same class; only the parts the claims cite).
-/

/-- `_meets_criteria` of `src/src/value_detector.py` (lines 67-77):
this revision checks both odds bounds and inlines the EV formula. -/
def meets_criteria (probability confidence odds : ℚ) : Bool :=
  if probability < FVD.MIN_PROBABILITY then false
  else if confidence < FVD.MIN_CONFIDENCE then false
  else if FVD.MAX_ODDS < odds ∨ odds < FVD.MIN_ODDS then false
  else if probability * odds - 1 < FVD.MIN_EV then false
  else true

/-- `_calculate_kelly_stake` of `src/src/value_detector.py`
(lines 79-88); textually the same computation as the other revision. -/
def calculate_kelly_stake (probability odds : ℚ) : ℚ :=
  let b := odds - 1
  if b = 0 then 0.01
  else
    let p := probability
    let q := 1 - p
    let kelly := (b * p - q) / b
    let fractional_kelly := kelly * FVD.kelly_fraction
    max 0 (min fractional_kelly 0.10)

end SRC

namespace FVD

/-!
`rank_opportunities` (lines 289-319 of
`src/football_value_detector/src/value_detector.py`; the same method is
repeated verbatim at lines 115-151 of `src/src/value_detector.py`).
Each opportunity dict is mutated in place (`opp['ranking_score'] = ...`)
and then `sorted(..., key=..., reverse=True)` builds a new list.  We
model a dict by a structure (`extra` stands for all the fields the
method never touches) and return a pair: the contents of the caller's
list after the call (same order, mutated records) and the returned
ranked list.  Python's `sorted` is a stable merge sort; `reverse=True`
keeps ties in original order, which is `mergeSort` with the comparison
`key b ≤ key a`. -/

/-- An opportunity dict as seen by `rank_opportunities`: the fields it
reads (`.get` with default `0`), the field it writes, and an opaque
remainder. -/
structure Opp where
  expected_value : Option ℚ
  confidence : Option ℚ
  ranking_score : Option ℚ
  extra : ℕ
deriving DecidableEq

/-- The in-place update `opp['ranking_score'] = ev * conf` where
`ev = opp.get('expected_value', 0)` and
`conf = opp.get('confidence', 0) / 100`. -/
def set_ranking_score (o : Opp) : Opp :=
  { o with ranking_score := some (o.expected_value.getD 0 * (o.confidence.getD 0 / 100)) }

/-- The sort key `x.get('ranking_score', 0)`. -/
def ranking_key (o : Opp) : ℚ :=
  o.ranking_score.getD 0

/-- Descending comparison used by `sorted(..., reverse=True)`. -/
def rank_le (a b : Opp) : Bool :=
  ranking_key b ≤ ranking_key a

/-- `rank_opportunities`: first component is the caller's list after
the call (the records are mutated in place), second is the returned
list. -/
def rank_opportunities (opportunities : List Opp) : List Opp × List Opp :=
  match opportunities with
  | [] => ([], [])
  | l =>
    let updated := l.map set_ranking_score
    (updated, updated.mergeSort rank_le)

end FVD

/-! ## Probability calculator

Embedding of `src/football_value_detector/src/probability_calculator.py`
(class `ProbabilityCalculator`), over `ℝ` because it uses `math.exp`.
Every private helper wraps its whole body in `try/except` and returns
the baseline `0.72` when anything inside raises; a malformed (non-dict)
argument, on which any `.get` raises, is the `bad` constructor. -/

namespace PC

/-- Python 3 `round` to an integer on `ℝ`: round half to even. -/
noncomputable def pyRoundIntR (x : ℝ) : ℤ :=
  let f := ⌊x⌋
  if x - f < 1/2 then f
  else if 1/2 < x - f then f + 1
  else if Even f then f else f + 1

/-- Python 3 `round(x, n)` on `ℝ`. -/
noncomputable def pyRoundR (n : ℕ) (x : ℝ) : ℝ :=
  (pyRoundIntR (x * 10 ^ n) : ℝ) / 10 ^ n

/-- A team-stats dict: the keys the calculator reads, each possibly
missing. -/
structure TeamStats where
  goals_for_avg : Option ℝ
  goals_against_avg : Option ℝ
  over_1_5_rate : Option ℝ
  recent_over_1_5_rate : Option ℝ
  recent_goals_avg : Option ℝ
  games_played : Option ℕ

/-- A stats argument: a dict, or a malformed value on which any
attribute access raises (caught by the local handlers). -/
inductive StatsIn where
  | bad : StatsIn
  | ok : TeamStats → StatsIn

/-- The h2h argument: `None`/falsy, malformed (raises on access), or a
dict `{'matches': [...]}` where each match dict yields
`match.get('total_goals', 0)`. -/
inductive H2HIn where
  | missing : H2HIn
  | bad : H2HIn
  | ok : List (Option ℕ) → H2HIn

/-- The match-context dict fields (`.get` defaults in the source). -/
structure MatchCtx where
  round : Option ℤ
  total_rounds : Option ℤ
  home_position : Option ℤ
  away_position : Option ℤ
  total_teams : Option ℤ
  is_derby : Bool
  is_classic : Bool

/-- The optional `match_context` argument. -/
inductive CtxIn where
  | missing : CtxIn
  | ok : MatchCtx → CtxIn

/-- `self.baseline_over_rate`. -/
noncomputable def baseline_over_rate : ℝ := 0.72

/-- `_calculate_poisson_over_probability` (lines 137-179):
`P(Over 1.5) = 1 - e^(-lambda_total) * (1 + lambda_total)` with
`lambda_total` the sum of the two sides' expected goals. -/
noncomputable def poisson_over_probability (home_stats away_stats : StatsIn) : ℝ :=
  match home_stats, away_stats with
  | .ok h, .ok a =>
    let home_attack := h.goals_for_avg.getD 1.5
    let away_defense := a.goals_against_avg.getD 1.5
    let lambda_home := (home_attack + away_defense) / 2
    let away_attack := a.goals_for_avg.getD 1.2
    let home_defense := h.goals_against_avg.getD 1.2
    let lambda_away := (away_attack + home_defense) / 2
    let lambda_total := lambda_home + lambda_away
    1 - Real.exp (-lambda_total) * (1 + lambda_total)
  | _, _ => baseline_over_rate

/-- `_calculate_historical_rate` (lines 181-200). -/
noncomputable def historical_rate (home_stats away_stats : StatsIn) : ℝ :=
  match home_stats, away_stats with
  | .ok h, .ok a =>
    h.over_1_5_rate.getD 0.72 * 0.55 + a.over_1_5_rate.getD 0.72 * 0.45
  | _, _ => baseline_over_rate

/-- `_calculate_recent_trend` (lines 202-221). -/
noncomputable def recent_trend (home_stats away_stats : StatsIn) : ℝ :=
  match home_stats, away_stats with
  | .ok h, .ok a =>
    (h.recent_over_1_5_rate.getD 0.72 + a.recent_over_1_5_rate.getD 0.72) / 2
  | _, _ => baseline_over_rate

/-- `_calculate_h2h_probability` (lines 223-254).  A missing or empty
`matches` list is falsy; fewer than 3 matches shrinks the observed rate
toward the baseline with weights 0.6 / 0.4. -/
noncomputable def h2h_probability (h2h_data : H2HIn) : ℝ :=
  match h2h_data with
  | .missing => baseline_over_rate
  | .bad => baseline_over_rate
  | .ok ms =>
    if ms = [] then baseline_over_rate
    else
      let over_count := (ms.filter fun m => 2 ≤ m.getD 0).length
      let h2h_rate : ℝ := (over_count : ℝ) / (ms.length : ℝ)
      if ms.length < 3 then h2h_rate * 0.6 + baseline_over_rate * 0.4
      else h2h_rate

/-- `_calculate_offensive_strength` (lines 256-286). -/
noncomputable def offensive_strength (home_stats away_stats : StatsIn) : ℝ :=
  match home_stats, away_stats with
  | .ok h, .ok a =>
    let total_attack := h.goals_for_avg.getD 1.5 + a.goals_for_avg.getD 1.2
    let prob :=
      if 3.0 ≤ total_attack then 0.85 + min ((total_attack - 3.0) * 0.05) 0.10
      else if 2.5 ≤ total_attack then 0.75
      else if 2.0 ≤ total_attack then 0.65
      else 0.50 + (total_attack - 1.5) * 0.3
    min prob 0.95
  | _, _ => baseline_over_rate

/-- `_calculate_offensive_trend` (lines 288-317). -/
noncomputable def offensive_trend (home_stats away_stats : StatsIn) : ℝ :=
  match home_stats, away_stats with
  | .ok h, .ok a =>
    let home_trend := h.recent_goals_avg.getD 1.5
    let away_trend := a.recent_goals_avg.getD 1.2
    let home_general := h.goals_for_avg.getD 1.5
    let away_general := a.goals_for_avg.getD 1.2
    let home_improvement := if 0 < home_general then home_trend / home_general else 1
    let away_improvement := if 0 < away_general then away_trend / away_general else 1
    let avg_improvement := (home_improvement + away_improvement) / 2
    min (baseline_over_rate * avg_improvement) 0.95
  | _, _ => baseline_over_rate

/-- `_calculate_season_phase_adjustment` (lines 319-349).  Integer
division by `total_rounds = 0` raises and lands in the handler. -/
noncomputable def season_phase_adjustment (match_context : CtxIn) : ℝ :=
  match match_context with
  | .missing => baseline_over_rate
  | .ok c =>
    let round_num := c.round.getD 20
    let total_rounds := c.total_rounds.getD 38
    if total_rounds = 0 then baseline_over_rate
    else
      let phase : ℝ := (round_num : ℝ) / (total_rounds : ℝ)
      if phase < 0.25 then 0.70
      else if phase < 0.75 then 0.72
      else 0.75

/-- `_calculate_motivation_factor` (lines 351-383).  Membership of a
position in `list(range(1, 5)) + list(range(total_teams - 2,
total_teams + 1))`. -/
noncomputable def motivation_factor (match_context : CtxIn) : ℝ :=
  match match_context with
  | .missing => baseline_over_rate
  | .ok c =>
    let home_position := c.home_position.getD 10
    let away_position := c.away_position.getD 10
    let total_teams := c.total_teams.getD 20
    let motivated : ℤ → Prop := fun p =>
      (1 ≤ p ∧ p ≤ 4) ∨ (total_teams - 2 ≤ p ∧ p ≤ total_teams)
    if motivated home_position ∧ motivated away_position then 0.78
    else if motivated home_position ∨ motivated away_position then 0.75
    else 0.70

/-- `_calculate_match_importance` (lines 385-407). -/
noncomputable def match_importance (match_context : CtxIn) : ℝ :=
  match match_context with
  | .missing => baseline_over_rate
  | .ok c => if c.is_derby ∨ c.is_classic then 0.78 else baseline_over_rate

/-- `_calculate_confidence` (lines 409-456).  Any raise inside the
`try` (malformed home/away stats at the `.get` calls, or a malformed
h2h value at the `len(...)` call) returns the base `50.0`. -/
noncomputable def calculate_confidence (home_stats away_stats : StatsIn) (h2h_data : H2HIn) : ℝ :=
  match home_stats, away_stats, h2h_data with
  | .ok h, .ok a, h2h =>
    match h2h with
    | .bad => 50
    | _ =>
      let home_games := h.games_played.getD 0
      let away_games := a.games_played.getD 0
      let games_bonus : ℝ :=
        if 10 ≤ home_games ∧ 10 ≤ away_games then 20
        else if 5 ≤ home_games ∧ 5 ≤ away_games then 10
        else 0
      let h2h_bonus : ℝ :=
        match h2h with
        | .ok ms =>
          if 3 ≤ ms.length then 15
          else if 1 ≤ ms.length then 7
          else 0
        | _ => 0
      let home_consistency := |h.over_1_5_rate.getD 0.72 - h.recent_over_1_5_rate.getD 0.72|
      let away_consistency := |a.over_1_5_rate.getD 0.72 - a.recent_over_1_5_rate.getD 0.72|
      let avg_consistency := (home_consistency + away_consistency) / 2
      let consistency_bonus : ℝ :=
        if avg_consistency < 0.10 then 15
        else if avg_consistency < 0.20 then 8
        else 0
      min (50 + games_bonus + h2h_bonus + consistency_bonus) 100
  | _, _, _ => 50

/-- The weight table `WEIGHTS` (lines 18-28). -/
structure Weights where
  poisson : ℝ
  historical_rate : ℝ
  recent_trend : ℝ
  h2h : ℝ
  offensive_strength : ℝ
  offensive_trend : ℝ
  season_phase : ℝ
  motivation : ℝ
  match_importance : ℝ

/-- The concrete weight values of the source. -/
noncomputable def WEIGHTS : Weights :=
  { poisson := 0.25
    historical_rate := 0.15
    recent_trend := 0.10
    h2h := 0.12
    offensive_strength := 0.10
    offensive_trend := 0.08
    season_phase := 0.08
    motivation := 0.07
    match_importance := 0.05 }

/-- The `breakdown` map of the result (lines 115-125): each entry is
the indicator value rounded to 4 decimals. -/
structure Breakdown where
  poisson : ℝ
  historical_rate : ℝ
  recent_trend : ℝ
  h2h : ℝ
  offensive_strength : ℝ
  offensive_trend : ℝ
  season_phase : ℝ
  motivation : ℝ
  match_importance : ℝ

/-- The result dict of `calculate_probability`. -/
structure ProbResult where
  probability : ℝ
  confidence : ℝ
  breakdown : Breakdown

/-- `calculate_probability` (lines 34-135).  Every operation of the
outer `try` body either is a handler-guarded helper call or is float
arithmetic on the helpers' results, so the outer `except` branch
(which would return `{'probability': 0.72, 'confidence': 0.30,
'breakdown': {}}`, lines 128-135) is unreachable; the embedding is the
`try` body. -/
noncomputable def calculate_probability (home_stats away_stats : StatsIn)
    (h2h_data : H2HIn) (match_context : CtxIn) : ProbResult :=
  let poisson_prob := poisson_over_probability home_stats away_stats
  let historical_prob := historical_rate home_stats away_stats
  let recent_prob := recent_trend home_stats away_stats
  let h2h_prob := h2h_probability h2h_data
  let offensive_prob := offensive_strength home_stats away_stats
  let offensive_trend_prob := offensive_trend home_stats away_stats
  let season_adjustment := season_phase_adjustment match_context
  let motivation_adjustment := motivation_factor match_context
  let importance_adjustment := match_importance match_context
  let final_probability :=
    poisson_prob * WEIGHTS.poisson +
    historical_prob * WEIGHTS.historical_rate +
    recent_prob * WEIGHTS.recent_trend +
    h2h_prob * WEIGHTS.h2h +
    offensive_prob * WEIGHTS.offensive_strength +
    offensive_trend_prob * WEIGHTS.offensive_trend +
    season_adjustment * WEIGHTS.season_phase +
    motivation_adjustment * WEIGHTS.motivation +
    importance_adjustment * WEIGHTS.match_importance
  let clamped := max 0 (min 1 final_probability)
  { probability := pyRoundR 4 clamped
    confidence := pyRoundR 2 (calculate_confidence home_stats away_stats h2h_data)
    breakdown :=
      { poisson := pyRoundR 4 poisson_prob
        historical_rate := pyRoundR 4 historical_prob
        recent_trend := pyRoundR 4 recent_prob
        h2h := pyRoundR 4 h2h_prob
        offensive_strength := pyRoundR 4 offensive_prob
        offensive_trend := pyRoundR 4 offensive_trend_prob
        season_phase := pyRoundR 4 season_adjustment
        motivation := pyRoundR 4 motivation_adjustment
        match_importance := pyRoundR 4 importance_adjustment } }

/-- The constant dict of the unreachable outer `except` branch
(lines 130-135): note `confidence` is the literal `0.30` there, on the
same 0-100 confidence scale as the rest of the file. -/
noncomputable def fallback_probability : ℝ := 0.72

/-- The `confidence` entry of the outer `except` branch. -/
noncomputable def fallback_confidence : ℝ := 0.30

end PC

/-! ## Helper lemmas -/

/-- Rank of the quality tiers in their documented order
`FRACA < REGULAR < BOA < MUITO BOA < EXCELENTE`. -/
def quality_rank (q : String) : ℕ :=
  if q = "EXCELENTE" then 4
  else if q = "MUITO BOA" then 3
  else if q = "BOA" then 2
  else if q = "REGULAR" then 1
  else 0

/-- The tier as a function of the composite score and the confidence,
numerically. -/
def tier_index (score confidence : ℚ) : ℕ :=
  if 0.25 ≤ score ∧ 80 ≤ confidence then 4
  else if 0.20 ≤ score ∧ 70 ≤ confidence then 3
  else if 0.15 ≤ score ∧ 60 ≤ confidence then 2
  else if 0.10 ≤ score then 1
  else 0

lemma quality_rank_classify (ev c e : ℚ) :
    quality_rank (FVD.classify_bet_quality ev c e) =
      tier_index (ev * 0.4 + c / 100 * 0.3 + e * 0.3) c := by
  unfold FVD.classify_bet_quality tier_index
  dsimp only
  split_ifs <;> rfl

set_option maxHeartbeats 1000000 in
lemma tier_index_mono {s c s' c' : ℚ} (hs : s ≤ s') (hc : c ≤ c') :
    tier_index s c ≤ tier_index s' c' := by
  unfold tier_index
  split_ifs with h1 h2 h3 h4 h5 h6 h7 h8 <;>
    simp only [not_and_or, not_le] at * <;>
    first
      | (exfalso; casesm* _ ∧ _, _ ∨ _ <;> linarith)
      | norm_num

lemma meets_criteria_iff (p c o : ℚ) :
    FVD.meets_criteria p c o = true ↔
      FVD.MIN_PROBABILITY ≤ p ∧ FVD.MIN_CONFIDENCE ≤ c ∧ o ≤ FVD.MAX_ODDS ∧
        FVD.MIN_EV ≤ p * o - 1 := by
  unfold FVD.meets_criteria FVD.calculate_expected_value
  split_ifs with h1 h2 h3 h4
  · simp only [Bool.false_eq_true, false_iff]
    exact fun hh => absurd hh.1 (not_le.mpr h1)
  · simp only [Bool.false_eq_true, false_iff]
    exact fun hh => absurd hh.2.1 (not_le.mpr h2)
  · simp only [Bool.false_eq_true, false_iff]
    exact fun hh => absurd hh.2.2.1 (not_le.mpr h3)
  · simp only [Bool.false_eq_true, false_iff]
    exact fun hh => absurd hh.2.2.2 (not_le.mpr h4)
  · simp only [true_iff]
    exact ⟨not_lt.mp h1, not_lt.mp h2, not_lt.mp h3, not_lt.mp h4⟩

lemma src_meets_criteria_iff (p c o : ℚ) :
    SRC.meets_criteria p c o = true ↔
      FVD.MIN_PROBABILITY ≤ p ∧ FVD.MIN_CONFIDENCE ≤ c ∧
        FVD.MIN_ODDS ≤ o ∧ o ≤ FVD.MAX_ODDS ∧ FVD.MIN_EV ≤ p * o - 1 := by
  unfold SRC.meets_criteria
  split_ifs with h1 h2 h3 h4
  · simp only [Bool.false_eq_true, false_iff]
    exact fun hh => absurd hh.1 (not_le.mpr h1)
  · simp only [Bool.false_eq_true, false_iff]
    exact fun hh => absurd hh.2.1 (not_le.mpr h2)
  · simp only [Bool.false_eq_true, false_iff]
    rintro ⟨-, -, hmin, hmax, -⟩
    rcases h3 with h | h
    · exact absurd hmax (not_le.mpr h)
    · exact absurd hmin (not_le.mpr h)
  · simp only [Bool.false_eq_true, false_iff]
    exact fun hh => absurd hh.2.2.2.2 (not_le.mpr h4)
  · push_neg at h3
    simp only [true_iff]
    exact ⟨not_lt.mp h1, not_lt.mp h2, h3.2, h3.1, not_lt.mp h4⟩

/-! ## Claims -/

/-- Claim C1: for every probability `p ∈ [0,1]` and decimal odds
`o > 1`, the expected value computed by `_calculate_expected_value`
equals `p*o - 1` exactly, and both revisions' eligibility checks
compare exactly this unrounded value against `MIN_EV`; in particular
`p = 0.75`, `o = 1.50` gives exactly `0.125`. -/
theorem C1_expected_value_exact :
    (∀ p o : ℚ, 0 ≤ p → p ≤ 1 → 1 < o →
      FVD.calculate_expected_value p o = p * o - 1 ∧
      (∀ c : ℚ,
        (FVD.meets_criteria p c o = true ↔
          FVD.MIN_PROBABILITY ≤ p ∧ FVD.MIN_CONFIDENCE ≤ c ∧
            o ≤ FVD.MAX_ODDS ∧ FVD.MIN_EV ≤ p * o - 1) ∧
        (SRC.meets_criteria p c o = true ↔
          FVD.MIN_PROBABILITY ≤ p ∧ FVD.MIN_CONFIDENCE ≤ c ∧
            FVD.MIN_ODDS ≤ o ∧ o ≤ FVD.MAX_ODDS ∧ FVD.MIN_EV ≤ p * o - 1))) ∧
    FVD.calculate_expected_value 0.75 1.50 = 0.125 := by
  refine ⟨fun p o _ _ _ => ⟨rfl, fun c => ⟨meets_criteria_iff p c o, src_meets_criteria_iff p c o⟩⟩, ?_⟩
  norm_num [FVD.calculate_expected_value]

/-- Witness for C1 at `p = 0.75`, `o = 1.50`. -/
theorem C1_expected_value_exact_witness :
    FVD.calculate_expected_value 0.75 1.50 = 0.75 * 1.50 - 1 :=
  (C1_expected_value_exact.1 0.75 1.50 (by norm_num) (by norm_num) (by norm_num)).1

/-- Claim C3: for every `p ∈ [0,1]` and `o > 1`, the stake of
`_calculate_kelly_stake` (identical in both revisions) equals
`clamp(0.25 * (b*p - (1-p)) / b, 0, 0.10)` with `b = o - 1`; it is
always in `[0, 0.10]` and is `0` whenever `p*o - 1 ≤ 0`. -/
theorem C3_kelly_stake_clamped :
    ∀ p o : ℚ, 0 ≤ p → p ≤ 1 → 1 < o →
      FVD.calculate_kelly_stake p o =
        max 0 (min (0.25 * (((o - 1) * p - (1 - p)) / (o - 1))) 0.10) ∧
      SRC.calculate_kelly_stake p o = FVD.calculate_kelly_stake p o ∧
      0 ≤ FVD.calculate_kelly_stake p o ∧
      FVD.calculate_kelly_stake p o ≤ 0.10 ∧
      (p * o - 1 ≤ 0 → FVD.calculate_kelly_stake p o = 0) := by
  intro p o hp0 hp1 ho
  have hbpos : (0:ℚ) < o - 1 := by linarith
  have hb : o - 1 ≠ 0 := ne_of_gt hbpos
  have key : FVD.calculate_kelly_stake p o =
      max 0 (min (0.25 * (((o - 1) * p - (1 - p)) / (o - 1))) 0.10) := by
    unfold FVD.calculate_kelly_stake
    dsimp only
    rw [if_neg hb, FVD.kelly_fraction]
    ring_nf
  have keySrc : SRC.calculate_kelly_stake p o = FVD.calculate_kelly_stake p o := by
    unfold FVD.calculate_kelly_stake SRC.calculate_kelly_stake
    rfl
  refine ⟨key, keySrc, ?_, ?_, ?_⟩
  · rw [key]; exact le_max_left _ _
  · rw [key]
    exact max_le (by norm_num) (le_trans (min_le_right _ _) (by norm_num))
  · intro hev
    rw [key]
    have hnum : (o - 1) * p - (1 - p) ≤ 0 := by nlinarith
    have hdiv : ((o - 1) * p - (1 - p)) / (o - 1) ≤ 0 :=
      div_nonpos_iff.mpr (Or.inr ⟨hnum, hbpos.le⟩)
    have hmul : 0.25 * (((o - 1) * p - (1 - p)) / (o - 1)) ≤ 0 := by nlinarith
    exact max_eq_left (le_trans (min_le_left _ _) hmul)

/-- Witness for C3 at `p = 0.75`, `o = 1.50`. -/
theorem C3_kelly_stake_clamped_witness :
    0 ≤ FVD.calculate_kelly_stake 0.75 1.50 ∧
      FVD.calculate_kelly_stake 0.75 1.50 ≤ 0.10 :=
  ⟨(C3_kelly_stake_clamped 0.75 1.50 (by norm_num) (by norm_num) (by norm_num)).2.2.1,
   (C3_kelly_stake_clamped 0.75 1.50 (by norm_num) (by norm_num) (by norm_num)).2.2.2.1⟩

/-- Claim C7: `_classify_bet_quality` is monotonic over the tier order
`FRACA < REGULAR < BOA < MUITO BOA < EXCELENTE`: increasing any one of
expected value, confidence or edge, the other two held fixed, never
strictly lowers the tier. -/
theorem C7_quality_tier_monotonic :
    (∀ ev ev' c e : ℚ, ev ≤ ev' →
      quality_rank (FVD.classify_bet_quality ev c e) ≤
        quality_rank (FVD.classify_bet_quality ev' c e)) ∧
    (∀ ev c c' e : ℚ, c ≤ c' →
      quality_rank (FVD.classify_bet_quality ev c e) ≤
        quality_rank (FVD.classify_bet_quality ev c' e)) ∧
    (∀ ev c e e' : ℚ, e ≤ e' →
      quality_rank (FVD.classify_bet_quality ev c e) ≤
        quality_rank (FVD.classify_bet_quality ev c e')) := by
  refine ⟨fun ev ev' c e h => ?_, fun ev c c' e h => ?_, fun ev c e e' h => ?_⟩ <;>
    rw [quality_rank_classify, quality_rank_classify] <;>
    exact tier_index_mono (by linarith) (by linarith)

/-- Witness for C7: a concrete EV increase never lowers the tier. -/
theorem C7_quality_tier_monotonic_witness :
    quality_rank (FVD.classify_bet_quality 0.12 75 0.10) ≤
      quality_rank (FVD.classify_bet_quality 0.30 75 0.10) :=
  C7_quality_tier_monotonic.1 0.12 0.30 75 0.10 (by norm_num)

/-- Claim C2: `analyze_match` (a total function: its body is wrapped in
`try/except Exception: return None`) returns `None` unless probability
`≥ 0.65`, confidence `≥ 0.60`, odds in `[1.10, 2.50]` and expected
value `≥ 0.05` all hold; in particular a missing odds value, or any
odds `≤ 1`, yields `None` rather than a thrown fault. -/
theorem C2_detector_gate (pd : FVD.ProbabilityData) (od : FVD.OddsData) :
    (od.over_1_5_odds = none → FVD.analyze_match pd od = none) ∧
    (∀ o : ℚ, od.over_1_5_odds = some o → o ≤ 1 →
      FVD.analyze_match pd od = none) ∧
    (FVD.analyze_match pd od ≠ none →
      ∃ o : ℚ, od.over_1_5_odds = some o ∧
        FVD.MIN_PROBABILITY ≤ pd.probability.getD 0 ∧
        FVD.MIN_CONFIDENCE ≤ pd.confidence.getD 0 ∧
        FVD.MIN_ODDS ≤ o ∧ o ≤ FVD.MAX_ODDS ∧
        FVD.MIN_EV ≤ pd.probability.getD 0 * o - 1) := by
  refine ⟨fun h => ?_, fun o ho hle => ?_, fun hne => ?_⟩
  · unfold FVD.analyze_match
    rw [h]
  · unfold FVD.analyze_match
    rw [ho]
    have : o = 0 ∨ o < FVD.MIN_ODDS := by
      rcases eq_or_ne o 0 with h0 | h0
      · exact Or.inl h0
      · refine Or.inr ?_
        rw [FVD.MIN_ODDS]
        linarith
    simp only [this, if_true]
  · rcases hod : od.over_1_5_odds with _ | o
    · exfalso
      apply hne
      unfold FVD.analyze_match
      rw [hod]
    · by_cases hlow : o = 0 ∨ o < FVD.MIN_ODDS
      · exfalso
        apply hne
        unfold FVD.analyze_match
        rw [hod]
        simp only [hlow, if_true]
      · by_cases hmc : FVD.meets_criteria (pd.probability.getD 0) (pd.confidence.getD 0) o = true
        · push_neg at hlow
          obtain ⟨h1, h2, h3, h4⟩ := (meets_criteria_iff _ _ _).mp hmc
          exact ⟨o, rfl, h1, h2, hlow.2, h3, h4⟩
        · exfalso
          apply hne
          unfold FVD.analyze_match
          rw [hod]
          simp only [hlow, if_false]
          rw [if_neg hmc]

/-- Witness for C2: odds quoted at exactly `1.0` are rejected. -/
theorem C2_detector_gate_witness :
    FVD.analyze_match ⟨some 0.9, some 80⟩ ⟨some 1⟩ = none :=
  (C2_detector_gate ⟨some 0.9, some 80⟩ ⟨some 1⟩).2.1 1 rfl (by norm_num)

lemma rank_le_trans : ∀ a b c : FVD.Opp,
    FVD.rank_le a b → FVD.rank_le b c → FVD.rank_le a c := by
  intro a b c hab hbc
  simp only [FVD.rank_le, decide_eq_true_eq] at *
  exact le_trans hbc hab

lemma rank_le_total : ∀ a b : FVD.Opp, FVD.rank_le a b || FVD.rank_le b a := by
  intro a b
  simp only [FVD.rank_le, Bool.or_eq_true, decide_eq_true_eq]
  exact le_total _ _

lemma rank_cons_eq (x : FVD.Opp) (xs : List FVD.Opp) :
    FVD.rank_opportunities (x :: xs) =
      ((x :: xs).map FVD.set_ranking_score,
        ((x :: xs).map FVD.set_ranking_score).mergeSort FVD.rank_le) := rfl

/-- Claim C9: `rank_opportunities` returns the opportunities in
descending order of `ranking_score = expected_value * (confidence /
100)` (a permutation of the score-updated input); the sort is stable
(elements of any fixed score keep their input order) and idempotent
(ranking the ranked output returns it unchanged). -/
theorem C9_rank_descending_stable_idempotent (l : List FVD.Opp) :
    ((FVD.rank_opportunities l).2).Pairwise
        (fun a b => FVD.ranking_key b ≤ FVD.ranking_key a) ∧
    ((FVD.rank_opportunities l).2).Perm (l.map FVD.set_ranking_score) ∧
    (∀ o, o ∈ (FVD.rank_opportunities l).2 →
      o.ranking_score =
        some (o.expected_value.getD 0 * (o.confidence.getD 0 / 100))) ∧
    (∀ q : ℚ,
      ((FVD.rank_opportunities l).2).filter
          (fun o => decide (FVD.ranking_key o = q)) =
        (l.map FVD.set_ranking_score).filter
          (fun o => decide (FVD.ranking_key o = q))) ∧
    (FVD.rank_opportunities ((FVD.rank_opportunities l).2)).2 =
      (FVD.rank_opportunities l).2 := by
  cases l with
  | nil =>
    refine ⟨List.Pairwise.nil, List.Perm.refl _, ?_, ?_, rfl⟩
    · intro o ho
      simp [FVD.rank_opportunities] at ho
    · intro q
      rfl
  | cons x xs =>
    set u := (x :: xs).map FVD.set_ranking_score with hu
    have hr : (FVD.rank_opportunities (x :: xs)).2 = u.mergeSort FVD.rank_le := rfl
    have hsorted : (u.mergeSort FVD.rank_le).Pairwise (fun a b => FVD.rank_le a b) :=
      List.sorted_mergeSort rank_le_trans rank_le_total u
    have hperm : (u.mergeSort FVD.rank_le).Perm u := List.mergeSort_perm u FVD.rank_le
    have hmem : ∀ o ∈ u.mergeSort FVD.rank_le,
        o.ranking_score =
          some (o.expected_value.getD 0 * (o.confidence.getD 0 / 100)) := by
      intro o ho
      rw [List.mem_mergeSort] at ho
      obtain ⟨y, _, rfl⟩ := List.mem_map.mp ho
      rfl
    refine ⟨?_, ?_, ?_, ?_, ?_⟩
    · rw [hr]
      exact hsorted.imp fun h => by simpa [FVD.rank_le] using h
    · rw [hr, hu]
      exact hperm
    · rw [hr]
      exact hmem
    · intro q
      rw [hr]
      set p : FVD.Opp → Bool := fun o => decide (FVD.ranking_key o = q) with hp
      have hc : (u.filter p).Pairwise (fun a b => FVD.rank_le a b) := by
        apply List.pairwise_of_forall_mem_list
        intro a ha b hb
        have ha2 := (List.mem_filter.mp ha).2
        have hb2 := (List.mem_filter.mp hb).2
        rw [hp] at ha2 hb2
        simp only [decide_eq_true_eq] at ha2 hb2
        simp [FVD.rank_le, ha2, hb2]
      have h1 : List.Sublist (u.filter p) (u.mergeSort FVD.rank_le) :=
        List.sublist_mergeSort rank_le_trans rank_le_total hc (List.filter_sublist u)
      have h2 : List.Sublist (u.filter p) ((u.mergeSort FVD.rank_le).filter p) := by
        have h3 := h1.filter p
        simp only [List.filter_filter, Bool.and_self] at h3
        exact h3
      have hlen : ((u.mergeSort FVD.rank_le).filter p).length = (u.filter p).length :=
        (hperm.filter p).length_eq
      exact (h2.eq_of_length hlen.symm).symm
    · rw [hr]
      have hne : u.mergeSort FVD.rank_le ≠ [] := by
        intro h
        have hl := congrArg List.length h
        rw [List.length_mergeSort, hu] at hl
        simp at hl
      cases hcase : u.mergeSort FVD.rank_le with
      | nil => exact absurd hcase hne
      | cons y ys =>
        have hmapid : (y :: ys).map FVD.set_ranking_score = y :: ys := by
          rw [← hcase]
          have : ∀ o ∈ u.mergeSort FVD.rank_le, FVD.set_ranking_score o = o := by
            intro o ho
            rw [List.mem_mergeSort] at ho
            obtain ⟨z, _, rfl⟩ := List.mem_map.mp ho
            rfl
          have h4 : (u.mergeSort FVD.rank_le).map FVD.set_ranking_score =
              (u.mergeSort FVD.rank_le).map id := List.map_congr_left this
          rw [h4, List.map_id]
        rw [rank_cons_eq, hmapid, ← hcase]
        exact List.mergeSort_of_sorted hsorted

/-- Witness for C9: on a concrete singleton batch, the ranked output's
element carries the computed ranking score. -/
theorem C9_rank_descending_stable_idempotent_witness :
    (FVD.set_ranking_score ⟨some 0.2, some 50, none, 0⟩).ranking_score =
      some ((0.2 : ℚ) * (50 / 100)) :=
  (C9_rank_descending_stable_idempotent [⟨some 0.2, some 50, none, 0⟩]).2.2.1
    (FVD.set_ranking_score ⟨some 0.2, some 50, none, 0⟩)
    (by simp [FVD.rank_opportunities])

/-- Counterexample for claim C10: `rank_opportunities` does mutate the
records the caller holds: a fresh opportunity (no `ranking_score` key)
acquires one, so the caller's list is no longer what it was. -/
theorem C10_rank_mutates_counterexample :
    (FVD.rank_opportunities [⟨some 0.2, some 80, none, 7⟩]).1 ≠
      [⟨some 0.2, some 80, none, 7⟩] := by
  intro h
  have h1 : (FVD.rank_opportunities [⟨some 0.2, some 80, none, 7⟩]).1 =
      [FVD.set_ranking_score ⟨some 0.2, some 80, none, 7⟩] := rfl
  rw [h1] at h
  injection h with h2 h3
  have h4 := congrArg FVD.Opp.ranking_score h2
  simp [FVD.set_ranking_score] at h4

/-- Amended claim C10: `rank_opportunities` returns a freshly built
ordered sequence and keeps the caller's list order, but it writes the
computed `ranking_score` into each record in place; every other field
of every record is unchanged. -/
theorem C10_rank_mutation_shape (l : List FVD.Opp) :
    (FVD.rank_opportunities l).1 = l.map FVD.set_ranking_score ∧
    ∀ o : FVD.Opp,
      (FVD.set_ranking_score o).expected_value = o.expected_value ∧
      (FVD.set_ranking_score o).confidence = o.confidence ∧
      (FVD.set_ranking_score o).extra = o.extra ∧
      (FVD.set_ranking_score o).ranking_score =
        some (o.expected_value.getD 0 * (o.confidence.getD 0 / 100)) := by
  constructor
  · cases l with
    | nil => rfl
    | cons x xs => rfl
  · intro o
    exact ⟨rfl, rfl, rfl, rfl⟩

namespace SRC

/-- `_calculate_poisson_over_probability` of
`src/src/probability_calculator.py` (lines 40-58): the same Poisson
formula taking `lambda` directly, clamped to `[0,1]`. -/
noncomputable def poisson_over_probability (lambda_value : ℝ) : ℝ :=
  max 0 (min 1 (1 - Real.exp (-lambda_value) * (1 + lambda_value)))

end SRC

lemma src_poisson_id {lam : ℝ} (h : 0 ≤ lam) :
    SRC.poisson_over_probability lam = 1 - Real.exp (-lam) * (1 + lam) := by
  unfold SRC.poisson_over_probability
  have hpos : 0 ≤ Real.exp (-lam) * (1 + lam) :=
    mul_nonneg (Real.exp_pos _).le (by linarith)
  have hle : Real.exp (-lam) * (1 + lam) ≤ 1 := by
    have h1 : lam + 1 ≤ Real.exp lam := Real.add_one_le_exp lam
    have h2 : Real.exp (-lam) * Real.exp lam = 1 := by rw [← Real.exp_add]; simp
    nlinarith [Real.exp_pos (-lam)]
  rw [min_eq_right (by linarith : (1:ℝ) - Real.exp (-lam) * (1 + lam) ≤ 1)]
  rw [max_eq_right (by linarith : (0:ℝ) ≤ 1 - Real.exp (-lam) * (1 + lam))]

lemma poisson_formula_lt {a b : ℝ} (ha : 0 < a) (hab : a < b) :
    1 - Real.exp (-a) * (1 + a) < 1 - Real.exp (-b) * (1 + b) := by
  have h1 : (b - a) + 1 < Real.exp (b - a) :=
    Real.add_one_lt_exp (by intro h; rw [sub_eq_zero] at h; exact absurd h (ne_of_gt hab))
  have h2 : (1 + b) < Real.exp (b - a) * (1 + a) := by
    nlinarith [mul_pos ha (show (0:ℝ) < b - a by linarith),
      mul_lt_mul_of_pos_right h1 (show (0:ℝ) < 1 + a by linarith)]
  have h3 : Real.exp (-b) * (1 + b) < Real.exp (-b) * (Real.exp (b - a) * (1 + a)) :=
    mul_lt_mul_of_pos_left h2 (Real.exp_pos _)
  have h4 : Real.exp (-b) * Real.exp (b - a) = Real.exp (-a) := by
    rw [← Real.exp_add]
    congr 1
    ring
  have h5 : Real.exp (-b) * (Real.exp (b - a) * (1 + a)) = Real.exp (-a) * (1 + a) := by
    rw [← mul_assoc, h4]
  linarith [h3, h5.symm.le]

lemma exp_one_half_bounds :
    (4.48:ℝ) < Real.exp 1.5 ∧ Real.exp 1.5 < 4.49 := by
  have e1l : (2.7182818283:ℝ) < Real.exp 1 := Real.exp_one_gt_d9
  have e1u : Real.exp 1 < 2.7182818286 := Real.exp_one_lt_d9
  have hpow3 : Real.exp 3 = Real.exp 1 ^ 3 := by
    rw [show (3:ℝ) = 1 + 1 + 1 by norm_num, Real.exp_add, Real.exp_add]
    ring
  have h3l : (20.0855:ℝ) < Real.exp 3 := by
    rw [hpow3]
    refine lt_trans (by norm_num : (20.0855:ℝ) < 2.7182818283 ^ 3) ?_
    exact pow_lt_pow_left₀ e1l (by norm_num) (by norm_num)
  have h3u : Real.exp 3 < 20.0856 := by
    rw [hpow3]
    refine lt_trans ?_ (by norm_num : (2.7182818286:ℝ) ^ 3 < 20.0856)
    exact pow_lt_pow_left₀ e1u (Real.exp_pos 1).le (by norm_num)
  have hsq : Real.exp 1.5 * Real.exp 1.5 = Real.exp 3 := by
    rw [← Real.exp_add]
    norm_num
  constructor
  · nlinarith [Real.exp_pos (1.5:ℝ)]
  · nlinarith [Real.exp_pos (1.5:ℝ)]

lemma exp_two_half_bounds :
    (12.18:ℝ) < Real.exp 2.5 ∧ Real.exp 2.5 < 12.19 := by
  have e1l : (2.7182818283:ℝ) < Real.exp 1 := Real.exp_one_gt_d9
  have e1u : Real.exp 1 < 2.7182818286 := Real.exp_one_lt_d9
  have hpow5 : Real.exp 5 = Real.exp 1 ^ 5 := by
    rw [show (5:ℝ) = 1 + 1 + 1 + 1 + 1 by norm_num,
      Real.exp_add, Real.exp_add, Real.exp_add, Real.exp_add]
    ring
  have h5l : (148.4:ℝ) < Real.exp 5 := by
    rw [hpow5]
    refine lt_trans (by norm_num : (148.4:ℝ) < 2.7182818283 ^ 5) ?_
    exact pow_lt_pow_left₀ e1l (by norm_num) (by norm_num)
  have h5u : Real.exp 5 < 148.45 := by
    rw [hpow5]
    refine lt_trans ?_ (by norm_num : (2.7182818286:ℝ) ^ 5 < 148.45)
    exact pow_lt_pow_left₀ e1u (Real.exp_pos 1).le (by norm_num)
  have hsq : Real.exp 2.5 * Real.exp 2.5 = Real.exp 5 := by
    rw [← Real.exp_add]
    norm_num
  constructor
  · nlinarith [Real.exp_pos (2.5:ℝ)]
  · nlinarith [Real.exp_pos (2.5:ℝ)]

/-- Claim C4: for the fixed line 1.5, the Poisson over-probability is
`1 - e^(-lambda) * (1 + lambda)` with `lambda` the sum of the two
sides' expected-goal lambdas (each the average of one side's attack
average and the opponent's defense average); it is strictly increasing
in `lambda` for `lambda > 0`, and `lambda = 1.5` gives about `0.442`,
`lambda = 2.5` about `0.713`, each within `0.01`. -/
theorem C4_poisson_over_probability :
    (∀ h a : PC.TeamStats,
      PC.poisson_over_probability (.ok h) (.ok a) =
        1 - Real.exp (-((h.goals_for_avg.getD 1.5 + a.goals_against_avg.getD 1.5) / 2 +
              (a.goals_for_avg.getD 1.2 + h.goals_against_avg.getD 1.2) / 2)) *
          (1 + ((h.goals_for_avg.getD 1.5 + a.goals_against_avg.getD 1.5) / 2 +
              (a.goals_for_avg.getD 1.2 + h.goals_against_avg.getD 1.2) / 2))) ∧
    (∀ lam : ℝ, 0 ≤ lam →
      SRC.poisson_over_probability lam = 1 - Real.exp (-lam) * (1 + lam)) ∧
    (∀ lam1 lam2 : ℝ, 0 < lam1 → lam1 < lam2 →
      SRC.poisson_over_probability lam1 < SRC.poisson_over_probability lam2) ∧
    |SRC.poisson_over_probability 1.5 - 0.442| < 0.01 ∧
    |SRC.poisson_over_probability 2.5 - 0.713| < 0.01 := by
  have hmain : ∀ lam : ℝ, 0 ≤ lam →
      SRC.poisson_over_probability lam = 1 - Real.exp (-lam) * (1 + lam) :=
    fun lam h => src_poisson_id h
  refine ⟨fun h a => rfl, hmain, ?_, ?_, ?_⟩
  · intro lam1 lam2 h1 h12
    rw [hmain lam1 h1.le, hmain lam2 (by linarith)]
    exact poisson_formula_lt h1 h12
  · rw [hmain 1.5 (by norm_num)]
    obtain ⟨hl, hu⟩ := exp_one_half_bounds
    have hprod : Real.exp (-(1.5:ℝ)) * Real.exp 1.5 = 1 := by
      rw [← Real.exp_add]
      norm_num
    have hinvl : (0.2227:ℝ) < Real.exp (-(1.5:ℝ)) := by
      nlinarith [Real.exp_pos (-(1.5:ℝ))]
    have hinvu : Real.exp (-(1.5:ℝ)) < 0.2233 := by
      nlinarith [Real.exp_pos (-(1.5:ℝ))]
    rw [abs_lt]
    constructor <;> nlinarith
  · rw [hmain 2.5 (by norm_num)]
    obtain ⟨hl, hu⟩ := exp_two_half_bounds
    have hprod : Real.exp (-(2.5:ℝ)) * Real.exp 2.5 = 1 := by
      rw [← Real.exp_add]
      norm_num
    have hinvl : (0.082:ℝ) < Real.exp (-(2.5:ℝ)) := by
      nlinarith [Real.exp_pos (-(2.5:ℝ))]
    have hinvu : Real.exp (-(2.5:ℝ)) < 0.0822 := by
      nlinarith [Real.exp_pos (-(2.5:ℝ))]
    rw [abs_lt]
    constructor <;> nlinarith

/-- Witness for C4: the over-probability strictly increases from
`lambda = 1` to `lambda = 2`. -/
theorem C4_poisson_over_probability_witness :
    SRC.poisson_over_probability 1 < SRC.poisson_over_probability 2 :=
  C4_poisson_over_probability.2.2.1 1 2 (by norm_num) (by norm_num)

lemma pyRoundIntR_intCast (n : ℤ) : PC.pyRoundIntR (n : ℝ) = n := by
  unfold PC.pyRoundIntR
  norm_num

lemma pyRoundR_eval {k : ℕ} {x : ℝ} {n : ℤ} (h : x * 10 ^ k = (n : ℝ)) :
    PC.pyRoundR k x = (n : ℝ) / 10 ^ k := by
  unfold PC.pyRoundR
  rw [h, pyRoundIntR_intCast]

lemma pyRoundIntR_bounds {x : ℝ} {lo hi : ℤ} (h1 : (lo:ℝ) ≤ x) (h2 : x ≤ (hi:ℝ)) :
    lo ≤ PC.pyRoundIntR x ∧ PC.pyRoundIntR x ≤ hi := by
  unfold PC.pyRoundIntR
  dsimp only
  have hfl : lo ≤ ⌊x⌋ := Int.le_floor.mpr h1
  have hfu : (⌊x⌋ : ℝ) ≤ x := Int.floor_le x
  have hcast : ⌊x⌋ ≤ hi := by
    have : (⌊x⌋ : ℝ) ≤ (hi : ℝ) := le_trans hfu h2
    exact_mod_cast this
  split_ifs with ha hb hc
  · exact ⟨hfl, hcast⟩
  · push_neg at ha
    have h3 : (⌊x⌋ : ℝ) + 1/2 ≤ x := by linarith
    have h4 : (⌊x⌋ : ℝ) < (hi : ℝ) := by linarith
    have h5 : ⌊x⌋ < hi := by exact_mod_cast h4
    exact ⟨by omega, by omega⟩
  · exact ⟨hfl, hcast⟩
  · push_neg at ha
    have h3 : (⌊x⌋ : ℝ) + 1/2 ≤ x := by linarith
    have h4 : (⌊x⌋ : ℝ) < (hi : ℝ) := by linarith
    have h5 : ⌊x⌋ < hi := by exact_mod_cast h4
    exact ⟨by omega, by omega⟩

lemma pyRoundR_bounds {k : ℕ} {x : ℝ} {lo hi : ℤ}
    (h1 : (lo:ℝ) ≤ x * 10 ^ k) (h2 : x * 10 ^ k ≤ (hi:ℝ)) :
    (lo:ℝ) / 10 ^ k ≤ PC.pyRoundR k x ∧ PC.pyRoundR k x ≤ (hi:ℝ) / 10 ^ k := by
  unfold PC.pyRoundR
  obtain ⟨a, b⟩ := pyRoundIntR_bounds h1 h2
  constructor
  · gcongr
  · gcongr

/-- Claim C6: with at least one but fewer than 3 head-to-head matches,
`_calculate_h2h_probability` returns `0.6 * observed_rate + 0.4 *
0.72`; for 2 matches that are both over the line the indicator is
`0.888`, strictly below `1`. -/
theorem C6_h2h_small_sample_shrinkage :
    (∀ ms : List (Option ℕ), 1 ≤ ms.length → ms.length < 3 →
      PC.h2h_probability (.ok ms) =
        (((ms.filter fun m => 2 ≤ m.getD 0).length : ℝ) / (ms.length : ℝ)) * 0.6 +
          0.72 * 0.4) ∧
    (∀ ms : List (Option ℕ), ms.length = 2 → (∀ m ∈ ms, 2 ≤ m.getD 0) →
      PC.h2h_probability (.ok ms) = 0.888 ∧ PC.h2h_probability (.ok ms) < 1) := by
  constructor
  · intro ms h1 h3
    have hne : ms ≠ [] := by
      intro h
      rw [h] at h1
      simp at h1
    unfold PC.h2h_probability
    dsimp only
    rw [if_neg hne, if_pos h3]
    rfl
  · intro ms h2 hall
    have h3 : ms.length < 3 := by omega
    have hne : ms ≠ [] := by
      intro h
      rw [h] at h2
      simp at h2
    have hfilter : ms.filter (fun m => 2 ≤ m.getD 0) = ms := by
      rw [List.filter_eq_self]
      intro a ha
      simpa using hall a ha
    have hv : PC.h2h_probability (.ok ms) = 0.888 := by
      unfold PC.h2h_probability
      dsimp only
      rw [if_neg hne, if_pos h3, hfilter, h2]
      show (2:ℝ) / 2 * 0.6 + PC.baseline_over_rate * 0.4 = 0.888
      rw [show PC.baseline_over_rate = 0.72 from rfl]
      norm_num
    exact ⟨hv, by rw [hv]; norm_num⟩

/-- Witness for C6: two head-to-head matches with 3 and 2 goals. -/
theorem C6_h2h_small_sample_shrinkage_witness :
    PC.h2h_probability (.ok [some 3, some 2]) = 0.888 ∧
      PC.h2h_probability (.ok [some 3, some 2]) < 1 :=
  C6_h2h_small_sample_shrinkage.2 [some 3, some 2] rfl (by decide)


lemma calc_prob_fields (home away : PC.StatsIn) (h2h : PC.H2HIn) (ctx : PC.CtxIn) :
    (PC.calculate_probability home away h2h ctx).probability =
      PC.pyRoundR 4 (max 0 (min 1
        (PC.poisson_over_probability home away * PC.WEIGHTS.poisson +
         PC.historical_rate home away * PC.WEIGHTS.historical_rate +
         PC.recent_trend home away * PC.WEIGHTS.recent_trend +
         PC.h2h_probability h2h * PC.WEIGHTS.h2h +
         PC.offensive_strength home away * PC.WEIGHTS.offensive_strength +
         PC.offensive_trend home away * PC.WEIGHTS.offensive_trend +
         PC.season_phase_adjustment ctx * PC.WEIGHTS.season_phase +
         PC.motivation_factor ctx * PC.WEIGHTS.motivation +
         PC.match_importance ctx * PC.WEIGHTS.match_importance))) ∧
    (PC.calculate_probability home away h2h ctx).confidence =
      PC.pyRoundR 2 (PC.calculate_confidence home away h2h) :=
  ⟨rfl, rfl⟩

lemma calculate_confidence_bounds (home away : PC.StatsIn) (h2h : PC.H2HIn) :
    50 ≤ PC.calculate_confidence home away h2h ∧
      PC.calculate_confidence home away h2h ≤ 100 := by
  unfold PC.calculate_confidence
  cases home with
  | bad => exact ⟨by norm_num, by norm_num⟩
  | ok h =>
    cases away with
    | bad => exact ⟨by norm_num, by norm_num⟩
    | ok a =>
      cases h2h with
      | missing =>
        dsimp only
        constructor
        · refine le_min ?_ (by norm_num)
          split_ifs <;> norm_num
        · exact min_le_right _ _
      | bad => exact ⟨by norm_num, by norm_num⟩
      | ok ms =>
        dsimp only
        constructor
        · refine le_min ?_ (by norm_num)
          split_ifs <;> norm_num
        · exact min_le_right _ _

lemma baseline_indicators_bad (h2h : PC.H2HIn) (hh : h2h = .bad ∨ h2h = .missing) :
    PC.poisson_over_probability .bad .bad = 0.72 ∧
    PC.historical_rate .bad .bad = 0.72 ∧
    PC.recent_trend .bad .bad = 0.72 ∧
    PC.h2h_probability h2h = 0.72 ∧
    PC.offensive_strength .bad .bad = 0.72 ∧
    PC.offensive_trend .bad .bad = 0.72 ∧
    PC.season_phase_adjustment .missing = 0.72 ∧
    PC.motivation_factor .missing = 0.72 ∧
    PC.match_importance .missing = 0.72 := by
  rcases hh with rfl | rfl <;>
    exact ⟨rfl, rfl, rfl, rfl, rfl, rfl, rfl, rfl, rfl⟩

lemma h2h_all_over_five :
    PC.h2h_probability (.ok [some 3, some 3, some 3, some 3, some 3]) = 1 := by
  unfold PC.h2h_probability
  dsimp only
  rw [if_neg (by simp : ([some 3, some 3, some 3, some 3, some 3] : List (Option ℕ)) ≠ [])]
  rw [if_neg (by norm_num :
    ¬ ([some 3, some 3, some 3, some 3, some 3] : List (Option ℕ)).length < 3)]
  norm_num [List.filter]

/-- Claim C5 counterexample: `home_stats` and `away_stats` malformed
(so internal steps raise and are caught per-indicator), h2h five
matches all over the line: the returned probability is `0.7536`,
outside the `[0.70, 0.72]` band the claim requires for every input on
which an internal step raises. -/
theorem C5_baseline_counterexample :
    (PC.calculate_probability .bad .bad
        (.ok [some 3, some 3, some 3, some 3, some 3]) .missing).probability
      = 0.7536 ∧
    ¬ ((PC.calculate_probability .bad .bad
        (.ok [some 3, some 3, some 3, some 3, some 3]) .missing).probability
      ≤ 0.72) := by
  have hp : (PC.calculate_probability .bad .bad
      (.ok [some 3, some 3, some 3, some 3, some 3]) .missing).probability = 0.7536 := by
    rw [(calc_prob_fields _ _ _ _).1, h2h_all_over_five]
    rw [show PC.poisson_over_probability .bad .bad = 0.72 from rfl]
    rw [show PC.historical_rate .bad .bad = 0.72 from rfl]
    rw [show PC.recent_trend .bad .bad = 0.72 from rfl]
    rw [show PC.offensive_strength .bad .bad = 0.72 from rfl]
    rw [show PC.offensive_trend .bad .bad = 0.72 from rfl]
    rw [show PC.season_phase_adjustment .missing = 0.72 from rfl]
    rw [show PC.motivation_factor .missing = 0.72 from rfl]
    rw [show PC.match_importance .missing = 0.72 from rfl]
    have hmax : max 0 (min 1
        ((0.72:ℝ) * PC.WEIGHTS.poisson + 0.72 * PC.WEIGHTS.historical_rate +
          0.72 * PC.WEIGHTS.recent_trend + 1 * PC.WEIGHTS.h2h +
          0.72 * PC.WEIGHTS.offensive_strength + 0.72 * PC.WEIGHTS.offensive_trend +
          0.72 * PC.WEIGHTS.season_phase + 0.72 * PC.WEIGHTS.motivation +
          0.72 * PC.WEIGHTS.match_importance)) = 0.7536 := by
      norm_num [PC.WEIGHTS, min_def, max_def]
    rw [hmax, pyRoundR_eval (show (0.7536:ℝ) * 10 ^ 4 = ((7536:ℤ):ℝ) by norm_num)]
    norm_num
  exact ⟨hp, by rw [hp]; norm_num⟩

/-- Amended claim C5: `calculate_probability` is a total function (no
exception propagates); its probability always lies in `[0,1]` and its
confidence always lies in `[50,100]` on the 0-100 scale.  An indicator
whose computation raises is replaced by the per-indicator baseline
`0.72`, so the result mixes baselines with the surviving indicators
and need not lie in `[0.70, 0.72]`; only when the team-stats inputs
are both malformed, the h2h input is absent or malformed, and no
context is given is the result the full baseline: probability exactly
`0.72` and confidence exactly `50`.  (The outer whole-body fallback
dict, which carries `confidence = 0.30`, is unreachable.) -/
theorem C5_fallback_behavior_amended :
    ∀ (home away : PC.StatsIn) (h2h : PC.H2HIn) (ctx : PC.CtxIn),
      (0 ≤ (PC.calculate_probability home away h2h ctx).probability ∧
       (PC.calculate_probability home away h2h ctx).probability ≤ 1 ∧
       50 ≤ (PC.calculate_probability home away h2h ctx).confidence ∧
       (PC.calculate_probability home away h2h ctx).confidence ≤ 100) ∧
      (home = .bad → away = .bad → (h2h = .bad ∨ h2h = .missing) → ctx = .missing →
        (PC.calculate_probability home away h2h ctx).probability = 0.72 ∧
        (PC.calculate_probability home away h2h ctx).confidence = 50) := by
  intro home away h2h ctx
  constructor
  · obtain ⟨hp, hc⟩ := calc_prob_fields home away h2h ctx
    rw [hp, hc]
    set E : ℝ := PC.poisson_over_probability home away * PC.WEIGHTS.poisson +
         PC.historical_rate home away * PC.WEIGHTS.historical_rate +
         PC.recent_trend home away * PC.WEIGHTS.recent_trend +
         PC.h2h_probability h2h * PC.WEIGHTS.h2h +
         PC.offensive_strength home away * PC.WEIGHTS.offensive_strength +
         PC.offensive_trend home away * PC.WEIGHTS.offensive_trend +
         PC.season_phase_adjustment ctx * PC.WEIGHTS.season_phase +
         PC.motivation_factor ctx * PC.WEIGHTS.motivation +
         PC.match_importance ctx * PC.WEIGHTS.match_importance with hE
    have hlo : (0:ℝ) ≤ max 0 (min 1 E) := le_max_left _ _
    have hhi : max 0 (min 1 E) ≤ 1 := max_le (by norm_num) (min_le_left _ _)
    obtain ⟨hcl, hcu⟩ := calculate_confidence_bounds home away h2h
    obtain ⟨b1, b2⟩ := @pyRoundR_bounds 4 (max 0 (min 1 E)) 0 10000
      (by push_cast; nlinarith) (by push_cast; nlinarith)
    obtain ⟨b3, b4⟩ := @pyRoundR_bounds 2 (PC.calculate_confidence home away h2h) 5000 10000
      (by push_cast; nlinarith) (by push_cast; nlinarith)
    norm_num at b1 b2 b3 b4
    exact ⟨b1, b2, b3, b4⟩
  · rintro rfl rfl hh rfl
    obtain ⟨i1, i2, i3, i4, i5, i6, i7, i8, i9⟩ := baseline_indicators_bad h2h hh
    obtain ⟨hp, hc⟩ := calc_prob_fields .bad .bad h2h .missing
    constructor
    · rw [hp, i1, i2, i3, i4, i5, i6, i7, i8, i9]
      have hmax : max 0 (min 1
          ((0.72:ℝ) * PC.WEIGHTS.poisson + 0.72 * PC.WEIGHTS.historical_rate +
            0.72 * PC.WEIGHTS.recent_trend + 0.72 * PC.WEIGHTS.h2h +
            0.72 * PC.WEIGHTS.offensive_strength + 0.72 * PC.WEIGHTS.offensive_trend +
            0.72 * PC.WEIGHTS.season_phase + 0.72 * PC.WEIGHTS.motivation +
            0.72 * PC.WEIGHTS.match_importance)) = 0.72 := by
        norm_num [PC.WEIGHTS, min_def, max_def]
      rw [hmax, pyRoundR_eval (show (0.72:ℝ) * 10 ^ 4 = ((7200:ℤ):ℝ) by norm_num)]
      norm_num
    · rw [hc]
      rw [show PC.calculate_confidence .bad .bad h2h = 50 from rfl]
      rw [pyRoundR_eval (show (50:ℝ) * 10 ^ 2 = ((5000:ℤ):ℝ) by norm_num)]
      norm_num

/-- Witness for the amended C5 at the all-failing input. -/
theorem C5_fallback_behavior_amended_witness :
    (PC.calculate_probability .bad .bad .missing .missing).probability = 0.72 ∧
      (PC.calculate_probability .bad .bad .missing .missing).confidence = 50 :=
  (C5_fallback_behavior_amended .bad .bad .missing .missing).2 rfl rfl (Or.inr rfl) rfl

lemma h2h_all_over_three :
    PC.h2h_probability (.ok [some 3, some 3, some 3]) = 1 := by
  unfold PC.h2h_probability
  dsimp only
  rw [if_neg (by simp : ([some 3, some 3, some 3] : List (Option ℕ)) ≠ [])]
  rw [if_neg (by norm_num :
    ¬ ([some 3, some 3, some 3] : List (Option ℕ)).length < 3)]
  norm_num [List.filter]

/-- Claim C8 counterexample: on an ordinary, fully exception-free
input (well-formed stats, three h2h matches all over the line, no
context) the `h2h` breakdown entry is the raw indicator value `1`
(rounded to 4 decimals), not the weighted contribution `value *
weight = 0.12`; so breakdown entries are not weighted contributions
and do not sum to the probability. -/
theorem C8_breakdown_counterexample :
    (PC.calculate_probability
        (.ok ⟨some 2, some 1, some 0.8, some 0.8, some 2, some 20⟩)
        (.ok ⟨some 2, some 1, some 0.8, some 0.8, some 2, some 20⟩)
        (.ok [some 3, some 3, some 3]) .missing).breakdown.h2h = 1 ∧
    (PC.calculate_probability
        (.ok ⟨some 2, some 1, some 0.8, some 0.8, some 2, some 20⟩)
        (.ok ⟨some 2, some 1, some 0.8, some 0.8, some 2, some 20⟩)
        (.ok [some 3, some 3, some 3]) .missing).breakdown.h2h ≠
      PC.h2h_probability (.ok [some 3, some 3, some 3]) * PC.WEIGHTS.h2h := by
  have he : (PC.calculate_probability
      (.ok ⟨some 2, some 1, some 0.8, some 0.8, some 2, some 20⟩)
      (.ok ⟨some 2, some 1, some 0.8, some 0.8, some 2, some 20⟩)
      (.ok [some 3, some 3, some 3]) .missing).breakdown.h2h =
      PC.pyRoundR 4 (PC.h2h_probability (.ok [some 3, some 3, some 3])) := rfl
  have h1 : (PC.calculate_probability
      (.ok ⟨some 2, some 1, some 0.8, some 0.8, some 2, some 20⟩)
      (.ok ⟨some 2, some 1, some 0.8, some 0.8, some 2, some 20⟩)
      (.ok [some 3, some 3, some 3]) .missing).breakdown.h2h = 1 := by
    rw [he, h2h_all_over_three,
      pyRoundR_eval (show (1:ℝ) * 10 ^ 4 = ((10000:ℤ):ℝ) by norm_num)]
    norm_num
  refine ⟨h1, ?_⟩
  rw [h1, h2h_all_over_three, show PC.WEIGHTS.h2h = (0.12:ℝ) from rfl]
  norm_num

/-- Amended claim C8: the weight table's entries sum to exactly `1.0`,
and the returned probability is the weighted sum of the indicator
values (clamped to `[0,1]` and rounded to 4 decimals at the output
boundary); but each breakdown entry stores the indicator's raw value
rounded to 4 decimals, not `value * weight`, so the breakdown entries
do not sum to the probability. -/
theorem C8_weights_breakdown_amended :
    (PC.WEIGHTS.poisson + PC.WEIGHTS.historical_rate + PC.WEIGHTS.recent_trend +
      PC.WEIGHTS.h2h + PC.WEIGHTS.offensive_strength + PC.WEIGHTS.offensive_trend +
      PC.WEIGHTS.season_phase + PC.WEIGHTS.motivation + PC.WEIGHTS.match_importance
      = 1) ∧
    (∀ (home away : PC.StatsIn) (h2h : PC.H2HIn) (ctx : PC.CtxIn),
      (PC.calculate_probability home away h2h ctx).probability =
        PC.pyRoundR 4 (max 0 (min 1
          (PC.poisson_over_probability home away * PC.WEIGHTS.poisson +
           PC.historical_rate home away * PC.WEIGHTS.historical_rate +
           PC.recent_trend home away * PC.WEIGHTS.recent_trend +
           PC.h2h_probability h2h * PC.WEIGHTS.h2h +
           PC.offensive_strength home away * PC.WEIGHTS.offensive_strength +
           PC.offensive_trend home away * PC.WEIGHTS.offensive_trend +
           PC.season_phase_adjustment ctx * PC.WEIGHTS.season_phase +
           PC.motivation_factor ctx * PC.WEIGHTS.motivation +
           PC.match_importance ctx * PC.WEIGHTS.match_importance))) ∧
      (PC.calculate_probability home away h2h ctx).breakdown.poisson =
        PC.pyRoundR 4 (PC.poisson_over_probability home away) ∧
      (PC.calculate_probability home away h2h ctx).breakdown.historical_rate =
        PC.pyRoundR 4 (PC.historical_rate home away) ∧
      (PC.calculate_probability home away h2h ctx).breakdown.recent_trend =
        PC.pyRoundR 4 (PC.recent_trend home away) ∧
      (PC.calculate_probability home away h2h ctx).breakdown.h2h =
        PC.pyRoundR 4 (PC.h2h_probability h2h) ∧
      (PC.calculate_probability home away h2h ctx).breakdown.offensive_strength =
        PC.pyRoundR 4 (PC.offensive_strength home away) ∧
      (PC.calculate_probability home away h2h ctx).breakdown.offensive_trend =
        PC.pyRoundR 4 (PC.offensive_trend home away) ∧
      (PC.calculate_probability home away h2h ctx).breakdown.season_phase =
        PC.pyRoundR 4 (PC.season_phase_adjustment ctx) ∧
      (PC.calculate_probability home away h2h ctx).breakdown.motivation =
        PC.pyRoundR 4 (PC.motivation_factor ctx) ∧
      (PC.calculate_probability home away h2h ctx).breakdown.match_importance =
        PC.pyRoundR 4 (PC.match_importance ctx)) := by
  refine ⟨by norm_num [PC.WEIGHTS], fun home away h2h ctx =>
    ⟨rfl, rfl, rfl, rfl, rfl, rfl, rfl, rfl, rfl, rfl⟩⟩
